import Mathlib

/-!
Verification of the monitoring and comparison core of the
`xax_mp_benchmarking` repository, shallowly embedded in Lean.

Python floats are modelled as rationals (`ℚ`): the arithmetic the code
performs on them (subtraction, division, `max`, sum / length) is exact on
the values at stake.  The environment the code observes (clock readings,
`psutil` calls, the `nvidia-smi` subprocess, the workload's
success or failure) is passed in explicitly as data, so every function is
total and executable and each theorem quantifies over all environments.
-/

namespace XaxMp

/-- `PerformanceSnapshot` from `performance_monitor.py`: a snapshot of
performance metrics at a point in time. -/
structure PerformanceSnapshot where
  wall_time : ℚ
  clock_time : ℚ
  cpu_memory_mb : ℚ
  gpu_memory_mb : ℚ
deriving DecidableEq

/-- Mutable state of `PerformanceMonitor` (`performance_monitor.py`),
as set up by `__init__`. -/
structure PerformanceMonitor where
  enable_memory_tracking : Bool
  enable_timing_tracking : Bool
  start_snapshot : Option PerformanceSnapshot
  peak_gpu_memory_mb : ℚ
  memory_samples : List ℚ
deriving DecidableEq

/-- `PerformanceMonitor.__init__(enable_memory_tracking, enable_timing_tracking)`:
`start_snapshot = None`, `peak_gpu_memory_mb = 0.0`, `memory_samples = []`. -/
def PerformanceMonitor.init (mem timing : Bool) : PerformanceMonitor :=
  { enable_memory_tracking := mem
    enable_timing_tracking := timing
    start_snapshot := none
    peak_gpu_memory_mb := 0
    memory_samples := [] }

/-- Outcome of the `psutil.Process(...).memory_info().rss` probe inside
`get_cpu_memory_mb`: either the call raises (any exception is caught by the
bare `except`) or it yields a resident-set size in bytes. -/
inductive CpuProbeOutcome where
  | raised
  | ok (rss_bytes : ℕ)
deriving DecidableEq

/-- Outcome of the `subprocess.run(["nvidia-smi", ...], timeout=5)` call
inside `get_gpu_memory_mb`.  `raised` covers `TimeoutExpired`,
`CalledProcessError` and `FileNotFoundError` (all caught); `completed`
carries the return code, whether `stdout.strip()` is non-empty, and the
value `float(stdout.strip())` parses to (`none` when `float` raises
`ValueError`, which is also caught). -/
inductive GpuProbeOutcome where
  | raised
  | completed (returncode : Int) (stdoutNonempty : Bool) (parsed : Option ℚ)
deriving DecidableEq

/-- `PerformanceMonitor.get_cpu_memory_mb`: `0.0` when memory tracking is
off or `psutil` is unavailable or the probe raises, otherwise
`rss / 1024 / 1024`. -/
def get_cpu_memory_mb (m : PerformanceMonitor) (psutilAvailable : Bool)
    (env : CpuProbeOutcome) : ℚ :=
  if !m.enable_memory_tracking || !psutilAvailable then 0
  else
    match env with
    | .raised => 0
    | .ok rss => (rss : ℚ) / 1024 / 1024

/-- `PerformanceMonitor.get_gpu_memory_mb`: `0.0` when memory tracking is
off; otherwise run `nvidia-smi` and, when `returncode == 0` and the
stripped stdout is non-empty, return `float(stdout.strip())` — or `0.0`
when the subprocess call raised, the return code was non-zero, stdout was
empty, or parsing raised `ValueError`. -/
def get_gpu_memory_mb (m : PerformanceMonitor) (env : GpuProbeOutcome) : ℚ :=
  if !m.enable_memory_tracking then 0
  else
    match env with
    | .raised => 0
    | .completed returncode stdoutNonempty parsed =>
        if returncode = 0 ∧ stdoutNonempty then
          match parsed with
          | some v => v
          | none => 0
        else 0

/-- The failure cases of the `nvidia-smi` probe named by the spec: the
subprocess call raised (missing tool, timeout, called-process error), the
tool exited non-zero, its output was empty, or its output did not parse as
a float. -/
def probeFailure : GpuProbeOutcome → Bool
  | .raised => true
  | .completed returncode stdoutNonempty parsed =>
      decide (returncode ≠ 0) || !stdoutNonempty || parsed.isNone

/-- Whether the probe's parsed output, if any, is nonnegative. -/
def gpuParsedNonneg : GpuProbeOutcome → Bool
  | .completed _ _ (some v) => decide (0 ≤ v)
  | _ => true

/-- `PerformanceMonitor.sample_memory`: no-op when memory tracking is off;
otherwise append the current GPU reading to `memory_samples` and update
`peak_gpu_memory_mb` with `max`. -/
def sample_memory (m : PerformanceMonitor) (env : GpuProbeOutcome) :
    PerformanceMonitor :=
  if !m.enable_memory_tracking then m
  else
    let current_gpu_memory := get_gpu_memory_mb m env
    { m with
      memory_samples := m.memory_samples ++ [current_gpu_memory]
      peak_gpu_memory_mb := max m.peak_gpu_memory_mb current_gpu_memory }

/-- The dictionary returned by `get_peak_memory_stats`. -/
structure PeakMemoryStats where
  peak_gpu_mb : ℚ
  avg_gpu_mb : ℚ
  samples_count : ℚ
deriving DecidableEq

/-- `PerformanceMonitor.get_peak_memory_stats`: all-zero when no samples
exist, otherwise the recorded peak, the mean of the samples, and the
sample count. -/
def get_peak_memory_stats (m : PerformanceMonitor) : PeakMemoryStats :=
  if m.memory_samples.isEmpty then
    { peak_gpu_mb := 0, avg_gpu_mb := 0, samples_count := 0 }
  else
    { peak_gpu_mb := m.peak_gpu_memory_mb
      avg_gpu_mb := m.memory_samples.sum / m.memory_samples.length
      samples_count := m.memory_samples.length }

/-- Environment observed by one `get_snapshot` call: the `time.time()` and
`time.perf_counter()` readings and the outcomes of the two memory probes
(`PSUTIL_AVAILABLE` is the module-level flag). -/
structure SnapshotEnv where
  wallTime : ℚ
  clockTime : ℚ
  psutilAvailable : Bool
  cpu : CpuProbeOutcome
  gpu : GpuProbeOutcome
deriving DecidableEq

/-- `PerformanceMonitor.get_snapshot`: wall/clock times when timing
tracking is on (else `0.0`), plus the two memory probes. -/
def get_snapshot (m : PerformanceMonitor) (env : SnapshotEnv) :
    PerformanceSnapshot :=
  { wall_time := if m.enable_timing_tracking then env.wallTime else 0
    clock_time := if m.enable_timing_tracking then env.clockTime else 0
    cpu_memory_mb := get_cpu_memory_mb m env.psutilAvailable env.cpu
    gpu_memory_mb := get_gpu_memory_mb m env.gpu }

/-- `PerformanceMonitor.start_monitoring`: store a fresh snapshot as the
baseline. -/
def start_monitoring (m : PerformanceMonitor) (env : SnapshotEnv) :
    PerformanceMonitor :=
  { m with start_snapshot := some (get_snapshot m env) }

/-- The dictionary returned by `get_delta`. -/
structure PerformanceDelta where
  wall_time_delta : ℚ
  clock_time_delta : ℚ
  cpu_memory_delta_mb : ℚ
  gpu_memory_delta_mb : ℚ
deriving DecidableEq

/-- `PerformanceMonitor.get_delta`: the empty dictionary (`none`) when no
baseline exists, otherwise the four field-wise differences
`end_snapshot - start_snapshot`. -/
def get_delta (m : PerformanceMonitor) (end_snapshot : PerformanceSnapshot) :
    Option PerformanceDelta :=
  match m.start_snapshot with
  | none => none
  | some s =>
      some
        { wall_time_delta := end_snapshot.wall_time - s.wall_time
          clock_time_delta := end_snapshot.clock_time - s.clock_time
          cpu_memory_delta_mb := end_snapshot.cpu_memory_mb - s.cpu_memory_mb
          gpu_memory_delta_mb := end_snapshot.gpu_memory_mb - s.gpu_memory_mb }

/-- `PerformanceMonitor.calculate_throughput`: `0.0` when
`elapsed_time <= 0`, else `num_batches / elapsed_time`. -/
def calculate_throughput (num_batches : ℕ) (elapsed_time : ℚ) : ℚ :=
  if elapsed_time ≤ 0 then 0 else (num_batches : ℚ) / elapsed_time

/-- `BenchmarkResult` from `performance_monitor.py`. -/
structure BenchmarkResult where
  precision_policy : String
  training_time_sec : ℚ
  throughput_batches_per_sec : ℚ
  cpu_memory_mb : ℚ
  gpu_memory_mb : ℚ
  cpu_memory_delta_mb : ℚ
  gpu_memory_delta_mb : ℚ
  peak_gpu_memory_mb : ℚ
deriving DecidableEq

/-- The sort key used by `compare_benchmark_results`:
`sorted(results, key=lambda x: x.training_time_sec)`. -/
def timeLE (a b : BenchmarkResult) : Prop :=
  a.training_time_sec ≤ b.training_time_sec

instance : DecidableRel timeLE :=
  fun a b => inferInstanceAs (Decidable (a.training_time_sec ≤ b.training_time_sec))

instance : IsTotal BenchmarkResult timeLE :=
  ⟨fun a b => le_total a.training_time_sec b.training_time_sec⟩

instance : IsTrans BenchmarkResult timeLE :=
  ⟨fun _ _ _ hab hbc => le_trans hab hbc⟩

/-- Python's `max(results, key=key)` on the non-empty list `x :: xs`: scan
left to right, replacing the current best only on a strictly larger key, so
on ties the first maximal element is returned. -/
def pyMaxBy (key : BenchmarkResult → ℚ) (x : BenchmarkResult)
    (xs : List BenchmarkResult) : BenchmarkResult :=
  xs.foldl (fun best r => if key best < key r then r else best) x

/-- Python's `min(results, key=key)` on the non-empty list `x :: xs`: scan
left to right, replacing the current best only on a strictly smaller key, so
on ties the first minimal element is returned. -/
def pyMinBy (key : BenchmarkResult → ℚ) (x : BenchmarkResult)
    (xs : List BenchmarkResult) : BenchmarkResult :=
  xs.foldl (fun best r => if key r < key best then r else best) x

/-- Content of the string built by `compare_benchmark_results`
(`performance_monitor.py`).  The purely presentational layer (column
widths, number formatting) is abstracted away; what is kept is exactly the
data the report displays: the rows in display order and the three
independently computed winners of the summary lines. -/
inductive ReportOutput where
  | noResults (message : String)
  | table (ranking : List BenchmarkResult)
      (fastest highest_throughput lowest_peak : BenchmarkResult)
deriving DecidableEq

/-- `compare_benchmark_results(results)`: `"No benchmark results to
compare"` on an empty list; otherwise the rows sorted ascending by
`training_time_sec` with Python's stable `sorted` (modelled by the stable
`List.insertionSort` — any two stable sorts of the same key agree), the
fastest policy `sorted_results[0]`, the highest-throughput policy
`max(results, key=...)` and the lowest-peak policy `min(results, key=...)`,
the latter two over the original list. -/
def compare_benchmark_results : List BenchmarkResult → ReportOutput
  | [] => .noResults "No benchmark results to compare"
  | r :: rs =>
      let sorted_results := List.insertionSort timeLE (r :: rs)
      .table sorted_results (sorted_results.headD r)
        (pyMaxBy (fun x => x.throughput_batches_per_sec) r rs)
        (pyMinBy (fun x => x.peak_gpu_memory_mb) r rs)

/-- `BenchmarkConfig` from `benchmark_config.py` (the fields the comparator
reads). -/
structure BenchmarkConfig where
  precision_policies : List String
  benchmark_max_steps : ℕ
  benchmark_batch_size : ℕ
  enable_memory_tracking : Bool
  enable_timing_tracking : Bool
deriving DecidableEq

/-- Environment observed by one `run_single_policy` call: the start
snapshot's environment, the `time.time()` readings bracketing the run, the
probe outcomes seen by the background sampling loop while the workload
runs, whether `MnistClassification.launch` raises, whether
`sampling_thread.join(timeout=2.0)` returns before the thread has
terminated (it can: an in-flight `nvidia-smi` call may block up to its
5-second bound, exceeding the 2-second join wait), and the end snapshot's
environment. -/
structure RunEnv where
  startSnapEnv : SnapshotEnv
  startTime : ℚ
  sampleOutcomes : List GpuProbeOutcome
  workloadRaises : Bool
  joinTimesOut : Bool
  endTime : ℚ
  endSnapEnv : SnapshotEnv
deriving DecidableEq

/-- The monitor state at the point `run_single_policy` reads it: a fresh
monitor with the config's flags, baselined by `start_monitoring`, after the
background loop's `sample_memory` calls. -/
def monitorAfterRun (cfg : BenchmarkConfig) (env : RunEnv) : PerformanceMonitor :=
  env.sampleOutcomes.foldl sample_memory
    (start_monitoring
      (PerformanceMonitor.init cfg.enable_memory_tracking cfg.enable_timing_tracking)
      env.startSnapEnv)

/-- The `BenchmarkResult` built on `run_single_policy`'s success path:
end snapshot, `training_time = end_time - start_time`, throughput from
`delta.get('clock_time_delta', training_time)`, deltas via
`delta.get(..., 0.0)`, and the peak from `get_peak_memory_stats`. -/
def successResult (cfg : BenchmarkConfig) (precision_policy : String)
    (env : RunEnv) : BenchmarkResult :=
  let monitor := monitorAfterRun cfg env
  let end_snapshot := get_snapshot monitor env.endSnapEnv
  let training_time := env.endTime - env.startTime
  let delta := get_delta monitor end_snapshot
  { precision_policy := precision_policy
    training_time_sec := training_time
    throughput_batches_per_sec :=
      calculate_throughput cfg.benchmark_max_steps
        (match delta with
         | some d => d.clock_time_delta
         | none => training_time)
    cpu_memory_mb := end_snapshot.cpu_memory_mb
    gpu_memory_mb := end_snapshot.gpu_memory_mb
    cpu_memory_delta_mb :=
      (match delta with
       | some d => d.cpu_memory_delta_mb
       | none => 0)
    gpu_memory_delta_mb :=
      (match delta with
       | some d => d.gpu_memory_delta_mb
       | none => 0)
    peak_gpu_memory_mb := (get_peak_memory_stats monitor).peak_gpu_mb }

/-- `PrecisionComparator.run_single_policy`: when the workload raises, the
`except` branch returns `None` (after the `finally` block has stopped and
joined the sampler); otherwise the computed `BenchmarkResult`. -/
def run_single_policy (cfg : BenchmarkConfig) (precision_policy : String)
    (env : RunEnv) : Option BenchmarkResult :=
  if env.workloadRaises then none
  else some (successResult cfg precision_policy env)

/-- `PrecisionComparator.run_comparison`: iterate the configured policies
in order, appending each run's result when present and continuing past
failed runs. -/
def run_comparison (cfg : BenchmarkConfig) (env : String → RunEnv) :
    List BenchmarkResult :=
  cfg.precision_policies.foldl
    (fun results policy =>
      match run_single_policy cfg policy (env policy) with
      | some r => results ++ [r]
      | none => results)
    []

/-- Outcome of `PrecisionComparator.print_comparison_results`. -/
inductive PrintOutcome where
  | noResultsMessage (msg : String)
  | printedReport (report : ReportOutput)
deriving DecidableEq

/-- `PrecisionComparator.print_comparison_results`: `"No results to
compare."` when the accumulated result list is empty, otherwise print the
comparison report. -/
def print_comparison_results (results : List BenchmarkResult) : PrintOutcome :=
  if results.isEmpty then .noResultsMessage "No results to compare."
  else .printedReport (compare_benchmark_results results)

/-- `sampling_thread.join(timeout=2.0)` in `run_single_policy`. -/
def sampling_join_timeout : ℚ := 2

/-- `subprocess.run(..., timeout=5)` in `get_gpu_memory_mb`. -/
def gpu_probe_timeout : ℚ := 5

/-- Observable events of one `run_single_policy` call, for the shutdown
ordering of the background sampler. -/
inductive RunEvent where
  | evStartMonitoring
  | evSamplerStart
  | evSample
  | evSignalStop
  | evJoin
  | evEndSnapshot
  | evComputeResult
  | evReturn
deriving DecidableEq

/-- Event trace of one `run_single_policy` call, in one admissible
interleaving.  Program order in the source: `start_monitoring`, the
sampler thread starts, the loop's `sample_memory` calls happen while the
workload runs, then — on both the success path and the `except` path — the
`finally` block sets `stop_sampling` and calls `join(timeout=2.0)`, and
only then (success path) are the end snapshot taken and the result
computed.  When the join times out, the daemon thread is still inside an
in-flight `monitor.sample_memory()` (its `nvidia-smi` call may block up to
5 seconds, longer than the 2-second join wait); the loop re-checks the
stop event only after that call returns, so that one sample completes
after `run_single_policy` has returned — the trace records it after
`evReturn`. -/
def run_single_policy_events (env : RunEnv) : List RunEvent :=
  [.evStartMonitoring, .evSamplerStart]
    ++ env.sampleOutcomes.map (fun _ => .evSample)
    ++ [.evSignalStop, .evJoin]
    ++ (if env.workloadRaises then [] else [.evEndSnapshot, .evComputeResult])
    ++ [.evReturn]
    ++ (if env.joinTimesOut then [.evSample] else [])

/-- The prefix of `tr` strictly before the first occurrence of `a`
(all of `tr` when `a` does not occur). -/
def beforeFirst (a : RunEvent) : List RunEvent → List RunEvent
  | [] => []
  | e :: rest => if e = a then [] else e :: beforeFirst a rest

/-- The suffix of `tr` strictly after the first occurrence of `a`
(empty when `a` does not occur). -/
def afterFirst (a : RunEvent) : List RunEvent → List RunEvent
  | [] => []
  | e :: rest => if e = a then rest else afterFirst a rest

/-- The monitor obtained from a fresh `PerformanceMonitor(mem, timing)` by a
sequence of `sample_memory` calls observing the given probe outcomes. -/
def monitorAfterSamples (mem timing : Bool) (outs : List GpuProbeOutcome) :
    PerformanceMonitor :=
  outs.foldl sample_memory (PerformanceMonitor.init mem timing)

/-- A probe run in which `nvidia-smi` exits cleanly and its output parses
to the given value. -/
def probeValue (v : ℚ) : GpuProbeOutcome := .completed 0 true (some v)

/-- A snapshot environment in which every probe fails. -/
def trivialSnapEnv : SnapshotEnv :=
  { wallTime := 0, clockTime := 0, psutilAvailable := false
    cpu := .raised, gpu := .raised }

/-- A run environment with no samples and failing probes; the workload
raises iff the argument says so. -/
def trivialRunEnv (workloadRaises : Bool) : RunEnv :=
  { startSnapEnv := trivialSnapEnv, startTime := 0, sampleOutcomes := []
    workloadRaises := workloadRaises, joinTimesOut := false, endTime := 1
    endSnapEnv := trivialSnapEnv }

/-- A benchmark configuration over the default three policies. -/
def threePolicyConfig : BenchmarkConfig :=
  { precision_policies := ["full", "half_param", "half_compute"]
    benchmark_max_steps := 2000, benchmark_batch_size := 128
    enable_memory_tracking := true, enable_timing_tracking := true }

/-- A benchmark configuration with an empty policy list. -/
def emptyPolicyConfig : BenchmarkConfig :=
  { precision_policies := [], benchmark_max_steps := 2000
    benchmark_batch_size := 128, enable_memory_tracking := true
    enable_timing_tracking := true }

/-- A configuration with timing tracking disabled. -/
def timingOffConfig : BenchmarkConfig :=
  { precision_policies := ["full"], benchmark_max_steps := 2000
    benchmark_batch_size := 128, enable_memory_tracking := true
    enable_timing_tracking := false }

/-- Environment in which exactly the `half_param` policy's workload
raises. -/
def halfParamFailsEnv : String → RunEnv :=
  fun p => trivialRunEnv (p == "half_param")

/-- Environment in which every policy's workload raises. -/
def allFailEnv : String → RunEnv := fun _ => trivialRunEnv true

/-- A run environment whose `join(timeout=2.0)` times out: the sampler is
still inside an in-flight probe call when the join wait expires. -/
def joinTimeoutRunEnv : RunEnv := { trivialRunEnv false with joinTimesOut := true }

/-- A monitor that already holds a baseline snapshot. -/
def monitorWithStart : PerformanceMonitor :=
  { enable_memory_tracking := true, enable_timing_tracking := true
    start_snapshot := some
      { wall_time := 1, clock_time := 2, cpu_memory_mb := 3, gpu_memory_mb := 4 }
    peak_gpu_memory_mb := 0, memory_samples := [] }

/-- A concrete end snapshot. -/
def endSnapshotB : PerformanceSnapshot :=
  { wall_time := 10, clock_time := 20, cpu_memory_mb := 30, gpu_memory_mb := 40 }

/-- A snapshot environment whose `nvidia-smi` output parses to `-5`. -/
def negGpuSnapEnv : SnapshotEnv :=
  { wallTime := 0, clockTime := 0, psutilAvailable := false
    cpu := .raised, gpu := probeValue (-5) }

/-- A snapshot environment with an `rss` reading and failing GPU probe. -/
def okCpuSnapEnv : SnapshotEnv :=
  { wallTime := 5, clockTime := 7, psutilAvailable := true
    cpu := .ok 2048, gpu := .raised }

/-- A result fixture: fastest policy, but neither highest throughput nor
lowest peak memory. -/
def resultFast : BenchmarkResult :=
  { precision_policy := "full", training_time_sec := 1
    throughput_batches_per_sec := 5, cpu_memory_mb := 10, gpu_memory_mb := 20
    cpu_memory_delta_mb := 1, gpu_memory_delta_mb := 2
    peak_gpu_memory_mb := 300 }

/-- A result fixture: highest throughput. -/
def resultBusy : BenchmarkResult :=
  { precision_policy := "half_param", training_time_sec := 2
    throughput_batches_per_sec := 9, cpu_memory_mb := 11, gpu_memory_mb := 21
    cpu_memory_delta_mb := 1, gpu_memory_delta_mb := 2
    peak_gpu_memory_mb := 200 }

/-- A result fixture: lowest peak accelerator memory. -/
def resultLean : BenchmarkResult :=
  { precision_policy := "half_compute", training_time_sec := 3
    throughput_batches_per_sec := 1, cpu_memory_mb := 12, gpu_memory_mb := 22
    cpu_memory_delta_mb := 1, gpu_memory_delta_mb := 2
    peak_gpu_memory_mb := 100 }

/-! ### Helper lemmas -/

/-- On every probe failure named by the spec, `get_gpu_memory_mb` returns
`0.0`. -/
theorem gpu_failure_zero (m : PerformanceMonitor) (env : GpuProbeOutcome)
    (h : probeFailure env = true) : get_gpu_memory_mb m env = 0 := by
  cases env with
  | raised => simp [get_gpu_memory_mb]
  | completed rc ne parsed =>
      rcases parsed with _ | v
      · simp [get_gpu_memory_mb]
      · simp only [probeFailure, Option.isNone_some, Bool.or_false,
          Bool.or_eq_true, decide_eq_true_eq, Bool.not_eq_true'] at h
        rcases h with h | h
        · simp [get_gpu_memory_mb, h]
        · simp [get_gpu_memory_mb, h]

/-- `get_cpu_memory_mb` is always nonnegative. -/
theorem cpu_mem_nonneg (m : PerformanceMonitor) (psutilAvailable : Bool)
    (env : CpuProbeOutcome) : 0 ≤ get_cpu_memory_mb m psutilAvailable env := by
  unfold get_cpu_memory_mb
  split
  · exact le_refl 0
  · cases env with
    | raised => exact le_refl 0
    | ok rss => positivity

/-- `get_gpu_memory_mb` is nonnegative whenever the probe's parsed output,
if any, is nonnegative. -/
theorem gpu_mem_nonneg (m : PerformanceMonitor) (env : GpuProbeOutcome)
    (h : gpuParsedNonneg env = true) : 0 ≤ get_gpu_memory_mb m env := by
  cases env with
  | raised => simp [get_gpu_memory_mb]
  | completed rc ne parsed =>
      by_cases hm : m.enable_memory_tracking
      · by_cases hc : rc = 0 ∧ ne = true
        · rcases parsed with _ | v
          · simp [get_gpu_memory_mb, hm, hc.1, hc.2]
          · simp only [gpuParsedNonneg, decide_eq_true_eq] at h
            simp [get_gpu_memory_mb, hm, hc.1, hc.2, h]
        · simp [get_gpu_memory_mb, hm, hc]
      · simp [get_gpu_memory_mb, hm]

/-! ### Claim theorems -/

/-- C3 (delta correctness): whenever a baseline `start_snapshot` is held,
`get_delta` returns exactly the four field-wise differences
`end_snapshot - start_snapshot` (wall time, clock time, process memory,
accelerator memory); with no baseline it returns the empty result. -/
theorem delta_correctness (m : PerformanceMonitor) (e : PerformanceSnapshot) :
    (∀ s, m.start_snapshot = some s →
      get_delta m e =
        some
          { wall_time_delta := e.wall_time - s.wall_time
            clock_time_delta := e.clock_time - s.clock_time
            cpu_memory_delta_mb := e.cpu_memory_mb - s.cpu_memory_mb
            gpu_memory_delta_mb := e.gpu_memory_mb - s.gpu_memory_mb }) ∧
    (m.start_snapshot = none → get_delta m e = none) := by
  constructor
  · intro s hs
    simp [get_delta, hs]
  · intro hn
    simp [get_delta, hn]

/-- Witness for C3 at a concrete monitor and end snapshot. -/
theorem delta_correctness_witness :
    get_delta monitorWithStart endSnapshotB =
      some
        { wall_time_delta := endSnapshotB.wall_time - 1
          clock_time_delta := endSnapshotB.clock_time - 2
          cpu_memory_delta_mb := endSnapshotB.cpu_memory_mb - 3
          gpu_memory_delta_mb := endSnapshotB.gpu_memory_mb - 4 } :=
  (delta_correctness monitorWithStart endSnapshotB).1 _ rfl

/-- C4 (throughput boundary): for every batch count `n` and elapsed time
`t`, `calculate_throughput` returns `0.0` when `t ≤ 0` and `n / t` when
`t > 0`; the division is only ever taken at a positive denominator. -/
theorem throughput_boundary (n : ℕ) (t : ℚ) :
    (t ≤ 0 → calculate_throughput n t = 0) ∧
    (0 < t → calculate_throughput n t = (n : ℚ) / t) := by
  constructor
  · intro h
    simp [calculate_throughput, h]
  · intro h
    simp [calculate_throughput, not_le.mpr h]

/-- Witness for C4 at `n = 3` with `t = -1` and `t = 2`. -/
theorem throughput_boundary_witness :
    calculate_throughput 3 (-1) = 0 ∧ calculate_throughput 3 2 = (3 : ℚ) / 2 :=
  ⟨(throughput_boundary 3 (-1)).1 (by norm_num),
   (throughput_boundary 3 2).2 (by norm_num)⟩

/-- C5 (probe degradation): whenever the `nvidia-smi` invocation raises
(missing tool, 5-second timeout, called-process error), exits non-zero, or
produces empty or unparsable output, `get_gpu_memory_mb` returns exactly
`0.0`.  The embedded function is total, reflecting that every such failure
is caught inside `get_gpu_memory_mb` and no exception reaches the
caller. -/
theorem probe_degradation (m : PerformanceMonitor) (env : GpuProbeOutcome)
    (h : probeFailure env = true) : get_gpu_memory_mb m env = 0 :=
  gpu_failure_zero m env h

/-- Witness for C5: the missing-tool outcome on a tracking-enabled
monitor. -/
theorem probe_degradation_witness :
    get_gpu_memory_mb (PerformanceMonitor.init true true) .raised = 0 :=
  probe_degradation (PerformanceMonitor.init true true) .raised rfl

/-- C9 counterexample: when the status tool exits cleanly but its output
parses to `-5`, `get_gpu_memory_mb` returns that value unchanged, so the
snapshot's `gpu_memory_mb` is negative — against the claim that every
snapshot has `accelerator_memory_mb ≥ 0` for arbitrary tool output. -/
theorem snapshot_nonneg_counterexample :
    (get_snapshot (PerformanceMonitor.init true true) negGpuSnapEnv).gpu_memory_mb
      < 0 := by
  norm_num [get_snapshot, get_gpu_memory_mb, PerformanceMonitor.init,
    negGpuSnapEnv, probeValue]

/-- C9 (amended): every snapshot from `get_snapshot` has
`process_memory_mb ≥ 0`; its `accelerator_memory_mb` is `0.0` on every
probe failure and is nonnegative whenever the tool's output, when it is
parsed at all, is nonnegative — but a cleanly exiting tool whose output
parses to a negative number is passed through unchanged. -/
theorem snapshot_field_nonneg (m : PerformanceMonitor) (env : SnapshotEnv) :
    0 ≤ (get_snapshot m env).cpu_memory_mb ∧
    (gpuParsedNonneg env.gpu = true → 0 ≤ (get_snapshot m env).gpu_memory_mb) ∧
    (probeFailure env.gpu = true → (get_snapshot m env).gpu_memory_mb = 0) := by
  refine ⟨cpu_mem_nonneg m env.psutilAvailable env.cpu, ?_, ?_⟩
  · intro h
    exact gpu_mem_nonneg m env.gpu h
  · intro h
    exact gpu_failure_zero m env.gpu h

/-- Witness for C9 at a concrete monitor and snapshot environment. -/
theorem snapshot_field_nonneg_witness :
    0 ≤ (get_snapshot (PerformanceMonitor.init true true) okCpuSnapEnv).cpu_memory_mb ∧
    0 ≤ (get_snapshot (PerformanceMonitor.init true true) okCpuSnapEnv).gpu_memory_mb ∧
    (get_snapshot (PerformanceMonitor.init true true) okCpuSnapEnv).gpu_memory_mb = 0 :=
  ⟨(snapshot_field_nonneg (PerformanceMonitor.init true true) okCpuSnapEnv).1,
   (snapshot_field_nonneg (PerformanceMonitor.init true true) okCpuSnapEnv).2.1 rfl,
   (snapshot_field_nonneg (PerformanceMonitor.init true true) okCpuSnapEnv).2.2 rfl⟩

/-- `sample_memory` touches only `peak_gpu_memory_mb` and `memory_samples`. -/
theorem sample_memory_preserves (m : PerformanceMonitor) (o : GpuProbeOutcome) :
    (sample_memory m o).enable_memory_tracking = m.enable_memory_tracking ∧
    (sample_memory m o).enable_timing_tracking = m.enable_timing_tracking ∧
    (sample_memory m o).start_snapshot = m.start_snapshot := by
  unfold sample_memory
  split
  · exact ⟨rfl, rfl, rfl⟩
  · exact ⟨rfl, rfl, rfl⟩

/-- A whole sampling run touches only the peak and the sample list. -/
theorem foldl_sample_memory_preserves (outs : List GpuProbeOutcome)
    (m : PerformanceMonitor) :
    ((outs.foldl sample_memory m).enable_memory_tracking = m.enable_memory_tracking ∧
     (outs.foldl sample_memory m).enable_timing_tracking = m.enable_timing_tracking ∧
     (outs.foldl sample_memory m).start_snapshot = m.start_snapshot) := by
  induction outs generalizing m with
  | nil => exact ⟨rfl, rfl, rfl⟩
  | cons o os ih =>
      simp only [List.foldl_cons]
      obtain ⟨h1, h2, h3⟩ := ih (sample_memory m o)
      obtain ⟨g1, g2, g3⟩ := sample_memory_preserves m o
      exact ⟨h1.trans g1, h2.trans g2, h3.trans g3⟩

/-- The peak register stays equal to `max 0` folded over the samples. -/
theorem foldl_sample_memory_peak (outs : List GpuProbeOutcome)
    (m : PerformanceMonitor)
    (hm : m.peak_gpu_memory_mb = m.memory_samples.foldl max 0) :
    (outs.foldl sample_memory m).peak_gpu_memory_mb =
      (outs.foldl sample_memory m).memory_samples.foldl max 0 := by
  induction outs generalizing m with
  | nil => exact hm
  | cons o os ih =>
      simp only [List.foldl_cons]
      apply ih
      unfold sample_memory
      split
      · exact hm
      · simp [List.foldl_append, hm]

/-- `get_gpu_memory_mb` reads only the memory-tracking flag of the
monitor. -/
theorem get_gpu_memory_mb_congr (m m2 : PerformanceMonitor) (o : GpuProbeOutcome)
    (h : m.enable_memory_tracking = m2.enable_memory_tracking) :
    get_gpu_memory_mb m o = get_gpu_memory_mb m2 o := by
  unfold get_gpu_memory_mb
  rw [h]

/-- With memory tracking on, a sampling run appends exactly one reading per
probe outcome, in order. -/
theorem foldl_sample_memory_samples (outs : List GpuProbeOutcome)
    (m : PerformanceMonitor) (hm : m.enable_memory_tracking = true) :
    (outs.foldl sample_memory m).memory_samples =
      m.memory_samples ++ outs.map (fun o => get_gpu_memory_mb m o) := by
  induction outs generalizing m with
  | nil => simp
  | cons o os ih =>
      simp only [List.foldl_cons, List.map_cons]
      have hm2 : (sample_memory m o).enable_memory_tracking = true :=
        (sample_memory_preserves m o).1.trans hm
      rw [ih (sample_memory m o) hm2]
      have hsamp : (sample_memory m o).memory_samples =
          m.memory_samples ++ [get_gpu_memory_mb m o] := by
        unfold sample_memory
        rw [if_neg (by simp [hm])]
      rw [hsamp]
      have hcongr : ∀ x, get_gpu_memory_mb (sample_memory m o) x =
          get_gpu_memory_mb m x := fun x =>
        get_gpu_memory_mb_congr (sample_memory m o) m x (sample_memory_preserves m o).1
      simp [List.map_congr_left fun x _ => hcongr x]

/-- The seed of `List.foldl max` bounds the result from below. -/
theorem le_foldl_max_seed (l : List ℚ) (a : ℚ) : a ≤ l.foldl max a := by
  induction l generalizing a with
  | nil => exact le_refl a
  | cons x xs ih => exact le_trans (le_max_left a x) (ih (max a x))

/-- Every element of the list is bounded by `List.foldl max`. -/
theorem mem_le_foldl_max (l : List ℚ) (a : ℚ) :
    ∀ r ∈ l, r ≤ l.foldl max a := by
  induction l generalizing a with
  | nil => intro r hr; cases hr
  | cons x xs ih =>
      intro r hr
      rcases List.mem_cons.mp hr with rfl | hr
      · exact le_trans (le_max_right a r) (le_foldl_max_seed xs (max a r))
      · exact ih (max a x) r hr

/-- `List.foldl max` returns its seed or a member of the list. -/
theorem foldl_max_mem (l : List ℚ) (a : ℚ) :
    l.foldl max a = a ∨ l.foldl max a ∈ l := by
  induction l generalizing a with
  | nil => left; rfl
  | cons x xs ih =>
      rcases ih (max a x) with h | h
      · rcases max_choice a x with he | he
        · left
          rw [List.foldl_cons, h, he]
        · right
          rw [List.foldl_cons, h, he]
          exact List.mem_cons_self x xs
      · right
        rw [List.foldl_cons]
        exact List.mem_cons_of_mem x h

/-- C2 counterexample: a single sample whose tool output parses to `-5`
leaves `memory_samples = [-5]` but `peak_gpu_memory_mb = 0`, so the peak is
not `max(r1..rk)` as claimed — the peak register starts at `0.0` and can
only exceed an all-negative reading sequence. -/
theorem monitor_peak_counterexample :
    (monitorAfterSamples true true [probeValue (-5)]).memory_samples =
      [(-5 : ℚ)] ∧
    (monitorAfterSamples true true [probeValue (-5)]).peak_gpu_memory_mb ≠
      (-5 : ℚ) := by
  constructor
  · norm_num [monitorAfterSamples, sample_memory, get_gpu_memory_mb,
      PerformanceMonitor.init, probeValue]
  · norm_num [monitorAfterSamples, sample_memory, get_gpu_memory_mb,
      PerformanceMonitor.init, probeValue]

/-- C2 (amended): after any sequence of `sample_memory` calls on a fresh
monitor, the readings are recorded in order, the peak equals `max` folded
over the readings from the initial `0.0` — hence equals `max(r1..rk)`
whenever the readings are nonnegative (as for any well-formed tool output),
though not for an all-negative reading sequence — the reported average is
exactly `sum / count`, and with zero samples the stats are all zero. -/
theorem monitor_peak_average (mem timing : Bool) (outs : List GpuProbeOutcome) :
    ((monitorAfterSamples mem timing outs).peak_gpu_memory_mb =
      (monitorAfterSamples mem timing outs).memory_samples.foldl max 0) ∧
    (mem = true → (monitorAfterSamples mem timing outs).memory_samples =
      outs.map (fun o => get_gpu_memory_mb (PerformanceMonitor.init mem timing) o)) ∧
    ((monitorAfterSamples mem timing outs).memory_samples ≠ [] →
      (∀ r ∈ (monitorAfterSamples mem timing outs).memory_samples, 0 ≤ r) →
      ((monitorAfterSamples mem timing outs).peak_gpu_memory_mb ∈
          (monitorAfterSamples mem timing outs).memory_samples ∧
        ∀ r ∈ (monitorAfterSamples mem timing outs).memory_samples,
          r ≤ (monitorAfterSamples mem timing outs).peak_gpu_memory_mb)) ∧
    ((monitorAfterSamples mem timing outs).memory_samples ≠ [] →
      get_peak_memory_stats (monitorAfterSamples mem timing outs) =
        { peak_gpu_mb := (monitorAfterSamples mem timing outs).peak_gpu_memory_mb
          avg_gpu_mb := (monitorAfterSamples mem timing outs).memory_samples.sum /
            (monitorAfterSamples mem timing outs).memory_samples.length
          samples_count := (monitorAfterSamples mem timing outs).memory_samples.length }) ∧
    ((monitorAfterSamples mem timing outs).memory_samples = [] →
      get_peak_memory_stats (monitorAfterSamples mem timing outs) =
        { peak_gpu_mb := 0, avg_gpu_mb := 0, samples_count := 0 }) := by
  have hpeak : (monitorAfterSamples mem timing outs).peak_gpu_memory_mb =
      (monitorAfterSamples mem timing outs).memory_samples.foldl max 0 :=
    foldl_sample_memory_peak outs (PerformanceMonitor.init mem timing) rfl
  refine ⟨hpeak, ?_, ?_, ?_, ?_⟩
  · intro hmem
    simpa using
      foldl_sample_memory_samples outs (PerformanceMonitor.init mem timing) hmem
  · intro hne hnn
    constructor
    · rcases foldl_max_mem (monitorAfterSamples mem timing outs).memory_samples 0
        with h0 | hmem0
      · obtain ⟨r, hr⟩ := List.exists_mem_of_ne_nil _ hne
        have h1 : r ≤ (0 : ℚ) := by
          have := mem_le_foldl_max (monitorAfterSamples mem timing outs).memory_samples 0 r hr
          rw [h0] at this
          exact this
        have h2 : (0 : ℚ) ≤ r := hnn r hr
        have hr0 : r = 0 := le_antisymm h1 h2
        rw [hpeak, h0, ← hr0]
        exact hr
      · rw [hpeak]
        exact hmem0
    · intro r hr
      rw [hpeak]
      exact mem_le_foldl_max _ 0 r hr
  · intro hne
    unfold get_peak_memory_stats
    rw [if_neg (by simp [hne])]
  · intro he
    unfold get_peak_memory_stats
    rw [if_pos (by simp [he])]

/-- Witness for C2 on two clean readings `500` and `300`: the peak is a
recorded sample and bounds both readings. -/
theorem monitor_peak_average_witness :
    (monitorAfterSamples true true [probeValue 500, probeValue 300]).peak_gpu_memory_mb ∈
      (monitorAfterSamples true true [probeValue 500, probeValue 300]).memory_samples ∧
    ∀ r ∈ (monitorAfterSamples true true [probeValue 500, probeValue 300]).memory_samples,
      r ≤ (monitorAfterSamples true true [probeValue 500, probeValue 300]).peak_gpu_memory_mb :=
  (monitor_peak_average true true [probeValue 500, probeValue 300]).2.2.1
    (by decide) (by decide)

/-- `run_comparison` keeps, in iteration order, exactly the results of the
policies whose workload does not raise. -/
theorem run_comparison_eq_filter_map (cfg : BenchmarkConfig)
    (env : String → RunEnv) :
    run_comparison cfg env =
      (cfg.precision_policies.filter fun p => !(env p).workloadRaises).map
        fun p => successResult cfg p (env p) := by
  unfold run_comparison
  suffices h : ∀ (ps : List String) (acc : List BenchmarkResult),
      ps.foldl
        (fun results policy =>
          match run_single_policy cfg policy (env policy) with
          | some r => results ++ [r]
          | none => results) acc =
        acc ++ (ps.filter fun p => !(env p).workloadRaises).map
          fun p => successResult cfg p (env p) by
    simpa using h cfg.precision_policies []
  intro ps
  induction ps with
  | nil => intro acc; simp
  | cons p ps ih =>
      intro acc
      simp only [List.foldl_cons]
      by_cases hp : (env p).workloadRaises
      · have hstep : (match run_single_policy cfg p (env p) with
            | some r => acc ++ [r]
            | none => acc) = acc := by
          simp [run_single_policy, hp]
        rw [hstep, ih acc]
        simp [hp]
      · have hstep : (match run_single_policy cfg p (env p) with
            | some r => acc ++ [r]
            | none => acc) = acc ++ [successResult cfg p (env p)] := by
          simp [run_single_policy, hp]
        rw [hstep, ih (acc ++ [successResult cfg p (env p)])]
        simp [hp]

/-- C1 (partial failure isolation): `run_comparison` returns, in iteration
order, exactly one result per policy whose workload completed without
raising — the result carries that policy's name — and a raising policy
contributes nothing; in particular, for the list `[A, B, C]` where only
`B`'s workload raises, the outcome is exactly `[Result(A), Result(C)]`. -/
theorem run_comparison_failure_isolation :
    (∀ (cfg : BenchmarkConfig) (env : String → RunEnv),
      run_comparison cfg env =
        (cfg.precision_policies.filter fun p => !(env p).workloadRaises).map
          fun p => successResult cfg p (env p)) ∧
    (∀ (cfg : BenchmarkConfig) (p : String) (e : RunEnv),
      (successResult cfg p e).precision_policy = p) ∧
    (∀ (cfg : BenchmarkConfig) (env : String → RunEnv) (A B C : String),
      cfg.precision_policies = [A, B, C] →
      (env A).workloadRaises = false →
      (env B).workloadRaises = true →
      (env C).workloadRaises = false →
      run_comparison cfg env =
        [successResult cfg A (env A), successResult cfg C (env C)]) := by
  refine ⟨run_comparison_eq_filter_map, fun cfg p e => rfl, ?_⟩
  intro cfg env A B C hpol hA hB hC
  rw [run_comparison_eq_filter_map cfg env, hpol]
  simp [hA, hB, hC]

/-- Witness for C1: of the three default policies only `half_param`'s
workload raises, and exactly the other two results come back, in order. -/
theorem run_comparison_failure_isolation_witness :
    run_comparison threePolicyConfig halfParamFailsEnv =
      [successResult threePolicyConfig "full" (halfParamFailsEnv "full"),
       successResult threePolicyConfig "half_compute"
         (halfParamFailsEnv "half_compute")] :=
  run_comparison_failure_isolation.2.2 threePolicyConfig
    halfParamFailsEnv "full" "half_param" "half_compute" rfl rfl rfl rfl

/-- C8 (empty-result reporting): with an empty policy list — or when every
run fails — `run_comparison` returns the empty sequence, and on an empty
result set the report path prints the explicit no-results message rather
than a table. -/
theorem empty_results_reporting :
    (∀ (cfg : BenchmarkConfig) (env : String → RunEnv),
      cfg.precision_policies = [] → run_comparison cfg env = []) ∧
    (∀ (cfg : BenchmarkConfig) (env : String → RunEnv),
      (∀ p ∈ cfg.precision_policies, (env p).workloadRaises = true) →
      run_comparison cfg env = []) ∧
    print_comparison_results [] = .noResultsMessage "No results to compare." ∧
    compare_benchmark_results [] =
      .noResults "No benchmark results to compare" := by
  refine ⟨?_, ?_, rfl, rfl⟩
  · intro cfg env h
    unfold run_comparison
    rw [h]
    rfl
  · intro cfg env h
    rw [run_comparison_eq_filter_map cfg env]
    have hfil : cfg.precision_policies.filter
        (fun p => !(env p).workloadRaises) = [] := by
      rw [List.filter_eq_nil_iff]
      intro p hp
      simp [h p hp]
    rw [hfil]
    rfl

/-- Witness for C8: the empty policy list and the all-runs-fail
environment both yield an empty comparison. -/
theorem empty_results_reporting_witness :
    run_comparison emptyPolicyConfig allFailEnv = [] ∧
    run_comparison threePolicyConfig allFailEnv = [] :=
  ⟨empty_results_reporting.1 emptyPolicyConfig allFailEnv rfl,
   empty_results_reporting.2.1 threePolicyConfig allFailEnv
     (fun _ _ => rfl)⟩

/-- `beforeFirst` distributes over an append whose first part misses the
marker. -/
theorem beforeFirst_append (a : RunEvent) (l1 l2 : List RunEvent)
    (h : a ∉ l1) : beforeFirst a (l1 ++ l2) = l1 ++ beforeFirst a l2 := by
  induction l1 with
  | nil => rfl
  | cons e rest ih =>
      rw [List.cons_append, beforeFirst, if_neg, List.cons_append,
        ih fun hm => h (List.mem_cons_of_mem e hm)]
      rintro rfl
      exact h (List.mem_cons_self e rest)

/-- `afterFirst` skips an append whose first part misses the marker. -/
theorem afterFirst_append (a : RunEvent) (l1 l2 : List RunEvent)
    (h : a ∉ l1) : afterFirst a (l1 ++ l2) = afterFirst a l2 := by
  induction l1 with
  | nil => rfl
  | cons e rest ih =>
      rw [List.cons_append, afterFirst, if_neg,
        ih fun hm => h (List.mem_cons_of_mem e hm)]
      rintro rfl
      exact h (List.mem_cons_self e rest)

/-- `evJoin` never occurs in the prefix of the trace before the `finally`
block. -/
theorem evJoin_not_mem_startup (env : RunEnv) :
    RunEvent.evJoin ∉
      ([RunEvent.evStartMonitoring, RunEvent.evSamplerStart]
        ++ env.sampleOutcomes.map (fun _ => RunEvent.evSample)) := by
  simp [List.mem_map]

/-- `evSignalStop` never occurs in the prefix of the trace before the
`finally` block. -/
theorem evSignalStop_not_mem_startup (env : RunEnv) :
    RunEvent.evSignalStop ∉
      ([RunEvent.evStartMonitoring, RunEvent.evSamplerStart]
        ++ env.sampleOutcomes.map (fun _ => RunEvent.evSample)) := by
  simp [List.mem_map]

/-- What comes before the first `evJoin` of a run trace: startup, the
in-run samples, and the stop signal — nothing else. -/
theorem beforeFirst_evJoin (env : RunEnv) :
    beforeFirst .evJoin (run_single_policy_events env) =
      [RunEvent.evStartMonitoring, RunEvent.evSamplerStart]
        ++ env.sampleOutcomes.map (fun _ => RunEvent.evSample)
        ++ [RunEvent.evSignalStop] := by
  have hsplit : run_single_policy_events env =
      ([RunEvent.evStartMonitoring, RunEvent.evSamplerStart]
        ++ env.sampleOutcomes.map (fun _ => RunEvent.evSample))
      ++ ([RunEvent.evSignalStop, RunEvent.evJoin]
        ++ ((if env.workloadRaises then [] else
              [RunEvent.evEndSnapshot, RunEvent.evComputeResult])
            ++ [RunEvent.evReturn]
            ++ (if env.joinTimesOut then [RunEvent.evSample] else []))) := by
    unfold run_single_policy_events
    simp [List.append_assoc]
  rw [hsplit, beforeFirst_append _ _ _ (evJoin_not_mem_startup env)]
  simp [beforeFirst, List.append_assoc]

/-- What comes after the first `evJoin` of a run trace: the success-path
events, the return, and — only when the join timed out — the late
sample. -/
theorem afterFirst_evJoin (env : RunEnv) :
    afterFirst .evJoin (run_single_policy_events env) =
      (if env.workloadRaises then [] else
        [RunEvent.evEndSnapshot, RunEvent.evComputeResult])
        ++ [RunEvent.evReturn]
        ++ (if env.joinTimesOut then [RunEvent.evSample] else []) := by
  have hsplit : run_single_policy_events env =
      ([RunEvent.evStartMonitoring, RunEvent.evSamplerStart]
        ++ env.sampleOutcomes.map (fun _ => RunEvent.evSample))
      ++ ([RunEvent.evSignalStop, RunEvent.evJoin]
        ++ ((if env.workloadRaises then [] else
              [RunEvent.evEndSnapshot, RunEvent.evComputeResult])
            ++ [RunEvent.evReturn]
            ++ (if env.joinTimesOut then [RunEvent.evSample] else []))) := by
    unfold run_single_policy_events
    simp [List.append_assoc]
  rw [hsplit, afterFirst_append _ _ _ (evJoin_not_mem_startup env)]
  simp [afterFirst, List.append_assoc]

/-- What comes before the first `evSignalStop` of a run trace. -/
theorem beforeFirst_evSignalStop (env : RunEnv) :
    beforeFirst .evSignalStop (run_single_policy_events env) =
      [RunEvent.evStartMonitoring, RunEvent.evSamplerStart]
        ++ env.sampleOutcomes.map (fun _ => RunEvent.evSample) := by
  have hsplit : run_single_policy_events env =
      ([RunEvent.evStartMonitoring, RunEvent.evSamplerStart]
        ++ env.sampleOutcomes.map (fun _ => RunEvent.evSample))
      ++ ([RunEvent.evSignalStop, RunEvent.evJoin]
        ++ ((if env.workloadRaises then [] else
              [RunEvent.evEndSnapshot, RunEvent.evComputeResult])
            ++ [RunEvent.evReturn]
            ++ (if env.joinTimesOut then [RunEvent.evSample] else []))) := by
    unfold run_single_policy_events
    simp [List.append_assoc]
  rw [hsplit, beforeFirst_append _ _ _ (evSignalStop_not_mem_startup env)]
  simp [beforeFirst]

/-- C6 counterexample: in the run whose `join(timeout=2.0)` expires while
the sampler is still inside an in-flight probe call, that sample completes
after `run_single_policy` has returned — against the claim that no
sampling occurs after the return. -/
theorem sampler_shutdown_counterexample :
    afterFirst .evReturn (run_single_policy_events joinTimeoutRunEnv) =
      [RunEvent.evSample] := by
  decide

/-- C6 (amended): on every path — workload success or failure — the stop
signal is set, and then the sampler joined with the bounded 2-second wait,
strictly before the end snapshot is taken and before the result is
computed; when the join completes within its timeout no sample lands after
it, but when the join times out (the in-flight probe call may block up to
its 5-second bound, exceeding the 2-second join wait) one in-flight sample
may complete after `run_single_policy` returns. -/
theorem sampler_shutdown_ordering (env : RunEnv) :
    (RunEvent.evEndSnapshot ∉
      beforeFirst .evSignalStop (run_single_policy_events env)) ∧
    (RunEvent.evComputeResult ∉
      beforeFirst .evSignalStop (run_single_policy_events env)) ∧
    (RunEvent.evJoin ∉
      beforeFirst .evSignalStop (run_single_policy_events env)) ∧
    (RunEvent.evEndSnapshot ∉
      beforeFirst .evJoin (run_single_policy_events env)) ∧
    (RunEvent.evComputeResult ∉
      beforeFirst .evJoin (run_single_policy_events env)) ∧
    (RunEvent.evReturn ∉
      beforeFirst .evJoin (run_single_policy_events env)) ∧
    RunEvent.evSignalStop ∈ run_single_policy_events env ∧
    RunEvent.evJoin ∈ run_single_policy_events env ∧
    sampling_join_timeout = 2 ∧
    (env.joinTimesOut = false →
      RunEvent.evSample ∉ afterFirst .evJoin (run_single_policy_events env)) := by
  refine ⟨?_, ?_, ?_, ?_, ?_, ?_, ?_, ?_, rfl, ?_⟩
  · rw [beforeFirst_evSignalStop]
    simp [List.mem_map]
  · rw [beforeFirst_evSignalStop]
    simp [List.mem_map]
  · rw [beforeFirst_evSignalStop]
    simp [List.mem_map]
  · rw [beforeFirst_evJoin]
    simp [List.mem_map]
  · rw [beforeFirst_evJoin]
    simp [List.mem_map]
  · rw [beforeFirst_evJoin]
    simp [List.mem_map]
  · unfold run_single_policy_events
    simp
  · unfold run_single_policy_events
    simp
  · intro hj
    rw [afterFirst_evJoin]
    simp only [hj, if_false]
    by_cases hw : env.workloadRaises <;> simp [hw]

/-- Witness for C6: in a run whose join completes in time, no sample
occurs after the join. -/
theorem sampler_shutdown_ordering_witness :
    RunEvent.evSample ∉
      afterFirst .evJoin (run_single_policy_events (trivialRunEnv false)) :=
  (sampler_shutdown_ordering (trivialRunEnv false)).2.2.2.2.2.2.2.2.2 rfl

/-- `pyMaxBy` returns an element of the scanned collection. -/
theorem pyMaxBy_mem (key : BenchmarkResult → ℚ) (x : BenchmarkResult)
    (xs : List BenchmarkResult) : pyMaxBy key x xs ∈ x :: xs := by
  induction xs generalizing x with
  | nil => exact List.mem_cons_self x []
  | cons y ys ih =>
      have h1 : pyMaxBy key x (y :: ys) =
          pyMaxBy key (if key x < key y then y else x) ys := rfl
      rw [h1]
      rcases List.mem_cons.mp (ih (if key x < key y then y else x)) with h | h
      · rw [h]
        by_cases hxy : key x < key y
        · simp [hxy]
        · simp [hxy]
      · exact List.mem_cons_of_mem x (List.mem_cons_of_mem y h)

/-- `pyMaxBy` bounds the seed and every scanned element from above. -/
theorem le_pyMaxBy (key : BenchmarkResult → ℚ) (x : BenchmarkResult)
    (xs : List BenchmarkResult) :
    key x ≤ key (pyMaxBy key x xs) ∧
    ∀ r ∈ xs, key r ≤ key (pyMaxBy key x xs) := by
  induction xs generalizing x with
  | nil => exact ⟨le_refl _, by intro r hr; cases hr⟩
  | cons y ys ih =>
      have h1 : pyMaxBy key x (y :: ys) =
          pyMaxBy key (if key x < key y then y else x) ys := rfl
      obtain ⟨ha, hb⟩ := ih (if key x < key y then y else x)
      refine ⟨?_, ?_⟩
      · rw [h1]
        refine le_trans ?_ ha
        by_cases hxy : key x < key y
        · rw [if_pos hxy]
          exact le_of_lt hxy
        · rw [if_neg hxy]
      · intro r hr
        rw [h1]
        rcases List.mem_cons.mp hr with rfl | hr
        · refine le_trans ?_ ha
          by_cases hxy : key x < key r
          · rw [if_pos hxy]
          · rw [if_neg hxy]
            exact le_of_not_lt hxy
        · exact hb r hr

/-- `pyMinBy` returns an element of the scanned collection. -/
theorem pyMinBy_mem (key : BenchmarkResult → ℚ) (x : BenchmarkResult)
    (xs : List BenchmarkResult) : pyMinBy key x xs ∈ x :: xs := by
  induction xs generalizing x with
  | nil => exact List.mem_cons_self x []
  | cons y ys ih =>
      have h1 : pyMinBy key x (y :: ys) =
          pyMinBy key (if key y < key x then y else x) ys := rfl
      rw [h1]
      rcases List.mem_cons.mp (ih (if key y < key x then y else x)) with h | h
      · rw [h]
        by_cases hxy : key y < key x
        · simp [hxy]
        · simp [hxy]
      · exact List.mem_cons_of_mem x (List.mem_cons_of_mem y h)

/-- `pyMinBy` bounds the seed and every scanned element from below. -/
theorem pyMinBy_le (key : BenchmarkResult → ℚ) (x : BenchmarkResult)
    (xs : List BenchmarkResult) :
    key (pyMinBy key x xs) ≤ key x ∧
    ∀ r ∈ xs, key (pyMinBy key x xs) ≤ key r := by
  induction xs generalizing x with
  | nil => exact ⟨le_refl _, by intro r hr; cases hr⟩
  | cons y ys ih =>
      have h1 : pyMinBy key x (y :: ys) =
          pyMinBy key (if key y < key x then y else x) ys := rfl
      obtain ⟨ha, hb⟩ := ih (if key y < key x then y else x)
      refine ⟨?_, ?_⟩
      · rw [h1]
        refine le_trans ha ?_
        by_cases hxy : key y < key x
        · rw [if_pos hxy]
          exact le_of_lt hxy
        · rw [if_neg hxy]
      · intro r hr
        rw [h1]
        rcases List.mem_cons.mp hr with rfl | hr
        · refine le_trans ha ?_
          by_cases hxy : key r < key x
          · rw [if_pos hxy]
          · rw [if_neg hxy]
            exact le_of_not_lt hxy
        · exact hb r hr

/-- Inserting into a list commutes with filtering one training-time class:
the skipped prefix of `orderedInsert` consists of strictly smaller keys. -/
theorem filter_orderedInsert (t : ℚ) (a : BenchmarkResult)
    (l : List BenchmarkResult) :
    (List.orderedInsert timeLE a l).filter
        (fun r => decide (r.training_time_sec = t)) =
      if a.training_time_sec = t then
        a :: l.filter (fun r => decide (r.training_time_sec = t))
      else l.filter (fun r => decide (r.training_time_sec = t)) := by
  induction l with
  | nil =>
      by_cases hat : a.training_time_sec = t
      · simp [List.orderedInsert, hat]
      · simp [List.orderedInsert, hat]
  | cons b l ih =>
      by_cases hab : timeLE a b
      · rw [List.orderedInsert, if_pos hab]
        by_cases hat : a.training_time_sec = t
        · simp [hat]
        · simp [hat]
      · rw [List.orderedInsert, if_neg hab]
        have hba : b.training_time_sec < a.training_time_sec :=
          lt_of_not_le hab
        by_cases hat : a.training_time_sec = t
        · have hbt : ¬b.training_time_sec = t := by
            rw [← hat]
            exact ne_of_lt hba
          rw [if_pos hat]
          rw [List.filter_cons_of_neg (by simp [hbt]),
            List.filter_cons_of_neg (by simp [hbt]), ih, if_pos hat]
        · rw [if_neg hat]
          by_cases hbt : b.training_time_sec = t
          · rw [List.filter_cons_of_pos (by simp [hbt]),
              List.filter_cons_of_pos (by simp [hbt]), ih, if_neg hat]
          · rw [List.filter_cons_of_neg (by simp [hbt]),
              List.filter_cons_of_neg (by simp [hbt]), ih, if_neg hat]

/-- Stability of the sort used by the report: filtering any one
training-time class out of the sorted list yields that class in its
original order. -/
theorem filter_insertionSort (t : ℚ) (l : List BenchmarkResult) :
    (List.insertionSort timeLE l).filter
        (fun r => decide (r.training_time_sec = t)) =
      l.filter (fun r => decide (r.training_time_sec = t)) := by
  induction l with
  | nil => rfl
  | cons a l ih =>
      rw [List.insertionSort, filter_orderedInsert]
      by_cases hat : a.training_time_sec = t
      · rw [if_pos hat, ih,
          List.filter_cons_of_pos (by simp [hat])]
      · rw [if_neg hat, ih,
          List.filter_cons_of_neg (by simp [hat])]

/-- The head the report picks as `sorted_results[0]` is a minimal-time
element of the original results. -/
theorem insertionSort_headD_min (r : BenchmarkResult)
    (rs : List BenchmarkResult) :
    (List.insertionSort timeLE (r :: rs)).headD r ∈ r :: rs ∧
    ∀ x ∈ r :: rs,
      ((List.insertionSort timeLE (r :: rs)).headD r).training_time_sec ≤
        x.training_time_sec := by
  have hperm := List.perm_insertionSort timeLE (r :: rs)
  have hsort := List.sorted_insertionSort (r := timeLE) (r :: rs)
  cases hs : List.insertionSort timeLE (r :: rs) with
  | nil =>
      rw [hs] at hperm
      exact absurd hperm.symm (by simp)
  | cons h0 tl =>
      rw [hs] at hperm hsort
      simp only [List.headD_cons]
      constructor
      · exact hperm.subset (List.mem_cons_self h0 tl)
      · intro x hx
        have hx2 : x ∈ h0 :: tl := hperm.symm.subset hx
        rcases List.mem_cons.mp hx2 with rfl | hx2
        · exact le_refl _
        · exact List.rel_of_sorted_cons hsort x hx2

/-- C7 (ranking correctness): for every non-empty result list the report is
a table whose rows are the results sorted ascending by training time with
ties in original order (a stable sort: sortedness, permutation, and
per-time-class order preservation), whose fastest entry attains the
minimal training time, whose highest-throughput entry attains the maximal
throughput, and whose lowest-peak entry attains the minimal peak GPU
memory — three independently computed winners. -/
theorem ranking_correctness (results : List BenchmarkResult)
    (h : results ≠ []) :
    ∃ ranking fastest highest lowest,
      compare_benchmark_results results = .table ranking fastest highest lowest ∧
      List.Sorted timeLE ranking ∧
      ranking.Perm results ∧
      (∀ t : ℚ, ranking.filter (fun r => decide (r.training_time_sec = t)) =
        results.filter (fun r => decide (r.training_time_sec = t))) ∧
      fastest ∈ results ∧
      (∀ r ∈ results, fastest.training_time_sec ≤ r.training_time_sec) ∧
      highest ∈ results ∧
      (∀ r ∈ results,
        r.throughput_batches_per_sec ≤ highest.throughput_batches_per_sec) ∧
      lowest ∈ results ∧
      (∀ r ∈ results, lowest.peak_gpu_memory_mb ≤ r.peak_gpu_memory_mb) := by
  match results with
  | [] => exact absurd rfl h
  | r :: rs =>
      refine ⟨List.insertionSort timeLE (r :: rs),
        (List.insertionSort timeLE (r :: rs)).headD r,
        pyMaxBy (fun x => x.throughput_batches_per_sec) r rs,
        pyMinBy (fun x => x.peak_gpu_memory_mb) r rs,
        rfl, List.sorted_insertionSort (r := timeLE) (r :: rs),
        List.perm_insertionSort timeLE (r :: rs),
        fun t => filter_insertionSort t (r :: rs),
        (insertionSort_headD_min r rs).1,
        (insertionSort_headD_min r rs).2, ?_, ?_, ?_, ?_⟩
      · exact pyMaxBy_mem (fun x => x.throughput_batches_per_sec) r rs
      · intro x hx
        rcases List.mem_cons.mp hx with rfl | hx
        · exact (le_pyMaxBy (fun x => x.throughput_batches_per_sec) x rs).1
        · exact (le_pyMaxBy (fun x => x.throughput_batches_per_sec) r rs).2 x hx
      · exact pyMinBy_mem (fun x => x.peak_gpu_memory_mb) r rs
      · intro x hx
        rcases List.mem_cons.mp hx with rfl | hx
        · exact (pyMinBy_le (fun y => y.peak_gpu_memory_mb) x rs).1
        · exact (pyMinBy_le (fun y => y.peak_gpu_memory_mb) r rs).2 x hx

/-- Witness for C7 on three concrete results whose three winners are three
different policies. -/
theorem ranking_correctness_witness :
    ∃ ranking fastest highest lowest,
      compare_benchmark_results [resultFast, resultBusy, resultLean] =
        .table ranking fastest highest lowest ∧
      fastest ∈ [resultFast, resultBusy, resultLean] ∧
      highest ∈ [resultFast, resultBusy, resultLean] ∧
      lowest ∈ [resultFast, resultBusy, resultLean] := by
  obtain ⟨rk, f, hi, lo, h1, _, _, _, h5, _, h7, _, h9, _⟩ :=
    ranking_correctness [resultFast, resultBusy, resultLean]
      (List.cons_ne_nil _ _)
  exact ⟨rk, f, hi, lo, h1, h5, h7, h9⟩

/-- With timing tracking disabled, both clock readings on the success path
of `run_single_policy` are zero, so the recorded throughput is the `t ≤ 0`
branch of `calculate_throughput`. -/
theorem successResult_throughput_timing_off (cfg : BenchmarkConfig)
    (policy : String) (env : RunEnv)
    (h : cfg.enable_timing_tracking = false) :
    (successResult cfg policy env).throughput_batches_per_sec = 0 := by
  have hflags := foldl_sample_memory_preserves env.sampleOutcomes
    (start_monitoring
      (PerformanceMonitor.init cfg.enable_memory_tracking
        cfg.enable_timing_tracking)
      env.startSnapEnv)
  have htiming : (monitorAfterRun cfg env).enable_timing_tracking = false := by
    have h2 := hflags.2.1
    simpa [monitorAfterRun, start_monitoring, PerformanceMonitor.init, h]
      using h2
  have hstart : (monitorAfterRun cfg env).start_snapshot =
      some (get_snapshot
        (PerformanceMonitor.init cfg.enable_memory_tracking
          cfg.enable_timing_tracking)
        env.startSnapEnv) := by
    have h2 := hflags.2.2
    simpa [monitorAfterRun, start_monitoring] using h2
  have hsclock : (get_snapshot
      (PerformanceMonitor.init cfg.enable_memory_tracking
        cfg.enable_timing_tracking)
      env.startSnapEnv).clock_time = 0 := by
    simp [get_snapshot, PerformanceMonitor.init, h]
  have heclock :
      (get_snapshot (monitorAfterRun cfg env) env.endSnapEnv).clock_time = 0 := by
    simp [get_snapshot, htiming]
  simp only [successResult, get_delta, hstart]
  rw [heclock, hsclock]
  norm_num [calculate_throughput]

/-- C10 (timing-disabled edge case): with `enable_timing_tracking = False`
every snapshot carries `wall_time = 0.0` and `clock_time = 0.0`, both time
deltas computed by `get_delta` over such snapshots are `0.0`, and the
throughput recorded in any result of `run_single_policy` is `0.0`
regardless of the actual elapsed time and step count. -/
theorem timing_disabled_zero :
    (∀ (m : PerformanceMonitor) (senv : SnapshotEnv),
      m.enable_timing_tracking = false →
      (get_snapshot m senv).wall_time = 0 ∧
        (get_snapshot m senv).clock_time = 0) ∧
    (∀ (m : PerformanceMonitor) (senv1 senv2 : SnapshotEnv)
        (d : PerformanceDelta),
      m.enable_timing_tracking = false →
      get_delta (start_monitoring m senv1)
        (get_snapshot (start_monitoring m senv1) senv2) = some d →
      d.wall_time_delta = 0 ∧ d.clock_time_delta = 0) ∧
    (∀ (cfg : BenchmarkConfig) (policy : String) (env : RunEnv)
        (r : BenchmarkResult),
      cfg.enable_timing_tracking = false →
      run_single_policy cfg policy env = some r →
      r.throughput_batches_per_sec = 0) := by
  refine ⟨?_, ?_, ?_⟩
  · intro m senv hm
    constructor <;> simp [get_snapshot, hm]
  · intro m senv1 senv2 d hm hd
    simp only [get_delta, start_monitoring] at hd
    obtain rfl := Option.some.inj hd
    constructor <;> simp [get_snapshot, start_monitoring, hm]
  · intro cfg policy env r hcfg hr
    unfold run_single_policy at hr
    by_cases hw : env.workloadRaises
    · rw [if_pos hw] at hr
      cases hr
    · rw [if_neg hw] at hr
      obtain rfl := Option.some.inj hr
      exact successResult_throughput_timing_off cfg policy env hcfg

/-- Witness for C10 on a timing-disabled monitor and configuration. -/
theorem timing_disabled_zero_witness :
    (get_snapshot (PerformanceMonitor.init true false) okCpuSnapEnv).wall_time
        = 0 ∧
    (get_snapshot (PerformanceMonitor.init true false) okCpuSnapEnv).clock_time
        = 0 ∧
    (successResult timingOffConfig "full"
        (trivialRunEnv false)).throughput_batches_per_sec = 0 :=
  ⟨(timing_disabled_zero.1 (PerformanceMonitor.init true false) okCpuSnapEnv
      rfl).1,
   (timing_disabled_zero.1 (PerformanceMonitor.init true false) okCpuSnapEnv
      rfl).2,
   timing_disabled_zero.2.2 timingOffConfig "full" (trivialRunEnv false)
     (successResult timingOffConfig "full" (trivialRunEnv false)) rfl rfl⟩

end XaxMp
